import Mathlib

/-!
Verification development for the coalmine feature-flag library.

The repository contains several variants of the same package.  The main
model below (namespace `Coalmine.V5`) embeds the variant consisting of
the coalmine.go found in src/unnamed/part_005 together with the first
matcher.go document (leveled killswitch, observer hook, lower-cased
feature registry and value keys, internal killswitch Loop from the
second document of src/killswitch/killswitch.go).  A second model
(namespace `Coalmine.V0`) embeds the older variant made of
src/unnamed/part_000 with the second document of src/context.go and the
boolean `killswitch.Memory` implementation from the first document of
src/killswitch/killswitch.go.  A third fragment (namespace
`Coalmine.CM`) embeds the feature-name registry of the first document of
src/coalmine.go, whose keys are not lower-cased.  The blob-store
killswitch of src/unnamed/part_003 is embedded in namespace
`Coalmine.Blob`.

Machine integers are modelled as `Nat` or `Int` with explicit reduction
modulo 2 ^ 32 where Go arithmetic wraps; Go strings are Lean `String`
with byte-level operations written out explicitly so that everything is
computable by the kernel.
-/

namespace Coalmine

/-- Model of Go strings.ToLower restricted to the ASCII case mapping, written
with an explicit character map so the kernel can evaluate it. -/
def toLowerStr (s : String) : String := String.mk (s.data.map Char.toLower)

/-- Model of Go strings.Split for a single-character separator: every
occurrence of the separator splits, empty chunks are kept, and the result
always has at least one element. -/
def splitChar (sep : Char) : List Char → List (List Char)
  | [] => [[]]
  | c :: rest =>
    if c = sep then [] :: splitChar sep rest
    else
      match splitChar sep rest with
      | [] => [[c]]
      | p :: ps => (c :: p) :: ps

/-- String wrapper around `splitChar`. -/
def splitOnChar (sep : Char) (s : String) : List String :=
  (splitChar sep s.data).map String.mk

/-- UTF-8 encoding of a single character, as the list of its byte values.
Go hashes the raw bytes of the string, which are its UTF-8 encoding. -/
def utf8Bytes (c : Char) : List Nat :=
  let n := c.toNat
  if n < 0x80 then [n]
  else if n < 0x800 then [0xC0 ||| (n >>> 6), 0x80 ||| (n &&& 0x3F)]
  else if n < 0x10000 then
    [0xE0 ||| (n >>> 12), 0x80 ||| ((n >>> 6) &&& 0x3F), 0x80 ||| (n &&& 0x3F)]
  else
    [0xF0 ||| (n >>> 18), 0x80 ||| ((n >>> 12) &&& 0x3F),
      0x80 ||| ((n >>> 6) &&& 0x3F), 0x80 ||| (n &&& 0x3F)]

/-- Byte sequence of a string (UTF-8), the input of the FNV hash. -/
def stringBytes (s : String) : List Nat := s.data.flatMap utf8Bytes

/-- One step of the 32-bit FNV-1a hash from Go hash/fnv (New32a): xor the
byte in, then multiply by the FNV prime 16777619, modulo 2 ^ 32. -/
def fnvStep (h b : Nat) : Nat := ((h ^^^ b) * 16777619) % 2 ^ 32

/-- The 32-bit FNV-1a hash of a byte list, starting from the offset basis
2166136261, as computed by fnv.New32a / Write / Sum32 in WithPercentage. -/
def fnvSum32 (bytes : List Nat) : Nat := bytes.foldl fnvStep 2166136261

/-- FNV-1a 32-bit hash of a string value, as used by WithPercentage. -/
def fnvString (s : String) : Nat := fnvSum32 (stringBytes s)

namespace V5

/-- Context entries of the current variant.  Go carries these in a
context.Context chain keyed by distinct private key types; the list head is
the innermost (most recently added) entry and lookups scan from the head.
`value` entries are written by WithValue with the key already lower-cased
(newValueKey), `feature` entries by WithOverride with the feature name
already lower-cased (newFeatureKey), `observer` marks a registered
ObserverFunc (WithObserver), and `killswitch` carries the cache of the
attached killswitch Loop (WithKillswitch). -/
inductive Entry where
  | value (key : String) (val : String)
  | feature (name : String) (enable : Bool)
  | observer
  | killswitch (cache : List (String × Int))

/-- A Go context chain, innermost entry first. -/
abbrev Ctx := List Entry

/-- Embeds getValue of part_005: look up the lower-cased key among value
entries, innermost first; a missing key reads as the empty string. -/
def getValue : Ctx → String → String
  | [], _ => ""
  | .value k v :: rest, key => if k = toLowerStr key then v else getValue rest key
  | _ :: rest, key => getValue rest key

/-- Presence of a value entry under a (lower-cased) stored key: the chain
holds some value for that slot.  Used to state the absent-key behavior of
getValue. -/
def hasValueKey : Ctx → String → Bool
  | [], _ => false
  | .value key _ :: rest, k => if key = k then true else hasValueKey rest k
  | _ :: rest, k => hasValueKey rest k

/-- Embeds getOverride of part_005: look up the lower-cased feature name
among per-feature override entries, innermost first. -/
def getOverride : Ctx → String → Option Bool
  | [], _ => none
  | .feature k b :: rest, name => if k = toLowerStr name then some b else getOverride rest name
  | _ :: rest, name => getOverride rest name

/-- Embeds the observer presence test of part_005 Feature.Enabled
(getObserver(ctx) != nil). -/
def hasObserver : Ctx → Bool
  | [] => false
  | .observer :: _ => true
  | _ :: rest => hasObserver rest

/-- Embeds getKillswitch of part_005: the innermost killswitch entry, whose
payload is the cache of the polling Loop. -/
def getKillswitch : Ctx → Option (List (String × Int))
  | [] => none
  | .killswitch c :: _ => some c
  | _ :: rest => getKillswitch rest

/-- Embeds WithValue of part_005: store the value under the lower-cased key
in a fresh innermost entry. -/
def withValue (ctx : Ctx) (key value : String) : Ctx :=
  .value (toLowerStr key) value :: ctx

/-- Embeds Loop.Get of the internal killswitch package: map lookup in the
cache, returning the level and whether the name is present. -/
def cacheGet : List (String × Int) → String → Option Int
  | [], _ => none
  | (k, v) :: rest, name => if k = name then some v else cacheGet rest name

/-- The deep matcher-option tree of part_005 / matcher.go.  The Go source
builds matchers from exactly these four MatcherOption constructors;
WithKillswitchOverride produces a nil matcher (it only sets the feature
level), which is faithfully reflected by its evaluation being the panic
value `none` below. -/
inductive MOption where
  | withAND (children : List MOption)
  | withExactMatch (key value : String)
  | withPercentage (key : String) (percent : Nat)
  | withKillswitchOverride (level : Int)

mutual

/-- Embeds matcher.evaluate of part_005 for a built option tree.  A leaf
compares or hashes a context value; an AND node checks its children in
order, short-circuiting on the first false.  `none` models the runtime
panic Go raises when it reaches the nil matcher slot that a nested
WithKillswitchOverride leaves inside a WithAND child array. -/
def evalMatcher : MOption → Ctx → Option Bool
  | .withExactMatch k v, ctx => some (decide (getValue ctx k = v))
  | .withPercentage k p, ctx => some (decide (fnvString (getValue ctx k) % 100 < p))
  | .withKillswitchOverride _, _ => none
  | .withAND cs, ctx => evalChildren cs ctx

/-- The AND loop of matcher.evaluate: all children must evaluate true, with
short-circuit on the first false child. -/
def evalChildren : List MOption → Ctx → Option Bool
  | [], _ => some true
  | m :: rest, ctx =>
    match evalMatcher m ctx with
    | none => none
    | some false => some false
    | some true => evalChildren rest ctx

end

/-- A Feature of part_005: a name, the killswitch override level (default 0,
set by WithKillswitchOverride), and the top-level matchers. -/
structure Feature where
  name : String
  ksLevel : Int
  matchers : List MOption

mutual

/-- The effect of building one MatcherOption on the feature level: building
WithKillswitchOverride assigns its level, and building a WithAND builds its
children in order, so a nested override also assigns (part_005 NewFeature
passes the feature pointer into every option). -/
def applyKsLevel : Int → MOption → Int
  | _, .withKillswitchOverride lvl => lvl
  | l, .withAND cs => applyKsLevelList l cs
  | l, _ => l

/-- Folds `applyKsLevel` over a list of options in build order. -/
def applyKsLevelList : Int → List MOption → Int
  | l, [] => l
  | l, m :: rest => applyKsLevelList (applyKsLevel l m) rest

end

/-- True for the option whose build returns a nil matcher in part_005
NewFeature (WithKillswitchOverride), which is then not appended. -/
def isKsOverride : MOption → Bool
  | .withKillswitchOverride _ => true
  | _ => false

/-- Embeds the construction part of NewFeature in part_005 (the duplicate
name registry is modelled separately): the level starts at 0, every option
is built in order, and only options that return a non-nil matcher are kept
as top-level matchers. -/
def mkFeature (name : String) (opts : List MOption) : Feature :=
  { name := name
    ksLevel := applyKsLevelList 0 opts
    matchers := opts.filter (fun o => !isKsOverride o) }

/-- Embeds WithOverride of part_005: records a forced state for the feature
under its lower-cased name. -/
def withOverride (ctx : Ctx) (f : Feature) (enable : Bool) : Ctx :=
  .feature (toLowerStr f.name) enable :: ctx

/-- The killswitch test inside part_005 Feature.Enabled: a killswitch is
attached and stores a level for the lower-cased feature name that is
greater than the feature level. -/
def killswitchHit (ctx : Ctx) (f : Feature) : Bool :=
  match getKillswitch ctx with
  | none => false
  | some cache =>
    match cacheGet cache (toLowerStr f.name) with
    | none => false
    | some lvl => decide (lvl > f.ksLevel)

/-- The OR loop over top-level matchers at the end of Feature.Enabled:
the feature is enabled when any matcher evaluates true. -/
def orMatchers : List MOption → Ctx → Option Bool
  | [], _ => some false
  | m :: rest, ctx =>
    match evalMatcher m ctx with
    | none => none
    | some true => some true
    | some false => orMatchers rest ctx

/-- The part of part_005 Feature.Enabled after the killswitch check:
per-feature override, then the matcher OR loop. -/
def postKillswitch (ctx : Ctx) (f : Feature) : Option Bool :=
  match getOverride ctx f.name with
  | some b => some b
  | none => orMatchers f.matchers ctx

/-- Embeds part_005 Feature.Enabled (decision value only): killswitch check
first, then per-feature override, then matchers, default false.  `none`
models a runtime panic during matcher evaluation. -/
def enabled (ctx : Ctx) (f : Feature) : Option Bool :=
  if killswitchHit ctx f then some false else postKillswitch ctx f

/-- The observer invocations a call performs: the deferred hook in
Feature.Enabled runs exactly when an observer is registered, receiving the
feature name and the named return value at return time. -/
def observerCalls (ctx : Ctx) (name : String) (result : Bool) : List (String × Bool) :=
  if hasObserver ctx then [(name, result)] else []

/-- Embeds part_005 Feature.Enabled together with its deferred observer
hook: each return path yields the decision and the list of observer
invocations made during the call. -/
def enabledWithObserver (ctx : Ctx) (f : Feature) :
    Option (Bool × List (String × Bool)) :=
  if killswitchHit ctx f then some (false, observerCalls ctx f.name false)
  else
    match getOverride ctx f.name with
    | some b => some (b, observerCalls ctx f.name b)
    | none =>
      match orMatchers f.matchers ctx with
      | none => none
      | some b => some (b, observerCalls ctx f.name b)

/-- Largest int64 value: the level the killswitch Loop stores for a line
with no level suffix (the untyped Go constant -math.MinInt64 - 1). -/
def maxInt64 : Int := 2 ^ 63 - 1

/-- Digit-string value: `some` of the decimal value when the list is
non-empty and all digits, otherwise `none`. -/
def digitsVal : List Char → Option Nat
  | [] => none
  | cs =>
    if cs.all Char.isDigit then
      some (cs.foldl (fun n c => n * 10 + (c.toNat - 48)) 0)
    else none

/-- Embeds Go strconv.ParseInt(s, 10, 0): an optional sign followed by at
least one decimal digit, failing on any other character and on values
outside the 64-bit signed range (bitSize 0 is 64-bit here). -/
def parseInt64 (s : String) : Option Int :=
  match s.data with
  | '+' :: rest =>
    match digitsVal rest with
    | none => none
    | some n => if n ≤ 2 ^ 63 - 1 then some (n : Int) else none
  | '-' :: rest =>
    match digitsVal rest with
    | none => none
    | some n => if n ≤ 2 ^ 63 then some (-(n : Int)) else none
  | cs =>
    match digitsVal cs with
    | none => none
    | some n => if n ≤ 2 ^ 63 - 1 then some (n : Int) else none

/-- Embeds the per-line parsing of Loop.tick: split on "=", lower-case the
name chunk; with a level chunk the level is its parsed value, the int64
zero value 0 when parsing fails; without one the level is maxInt64.  The
splitChar result is never empty, so the first arm is unreachable. -/
def parseLine (line : String) : String × Int :=
  match splitOnChar '=' line with
  | [] => ("", maxInt64)
  | [name] => (toLowerStr name, maxInt64)
  | name :: lvl :: _ => (toLowerStr name, (parseInt64 lvl).getD 0)

/-- Map write m[k] = v of Loop.tick, on the association-list model of the
Go map. -/
def mapInsert : List (String × Int) → String → Int → List (String × Int)
  | [], k, v => [(k, v)]
  | (k0, v0) :: rest, k, v =>
    if k0 = k then (k, v) :: rest else (k0, v0) :: mapInsert rest k v

/-- The fresh replacement map a successful Loop.tick builds from the scanned
lines of the killswitch file. -/
def tickParse (lines : List String) : List (String × Int) :=
  lines.foldl (fun m line => mapInsert m (parseLine line).1 (parseLine line).2) []

/-- State of the killswitch Loop: the cached name-to-level map and the hash
of the raw bytes of the last successfully read file. -/
structure LoopState where
  cache : List (String × Int)
  hash : Nat

/-- Outcome of one file read in Loop.tick: os.Open may fail outright, and
otherwise the bufio scanner yields the lines it could read together with
the hash of the bytes seen — all lines of the file at end of input, but
only the prefix read so far when a read error (or bufio.ErrTooLong)
interrupts the scan, which the readError flag records. -/
inductive FileRead where
  | openError
  | scan (lines : List String) (h : Nat) (readError : Bool)

/-- True when the poll cycle failed to fetch the source: the open failed,
or the scan stopped because of a read error instead of end of input. -/
def FileRead.failed : FileRead → Bool
  | .openError => true
  | .scan _ _ e => e

/-- Embeds Loop.tick of the internal killswitch package: a failed os.Open
returns immediately, leaving the state untouched; otherwise the cache is
replaced with the map parsed from whatever lines the scanner yielded,
together with the hash of the bytes read.  Loop.tick never consults
scanner.Err(), so the readError flag is ignored here exactly as the error
is in the source: a scan interrupted by a read error installs the
partially built map just as a completed scan would. -/
def loopTick (st : LoopState) (r : FileRead) : LoopState :=
  match r with
  | .openError => st
  | .scan lines h _ => { cache := tickParse lines, hash := h }

/-- Embeds Loop.Get: a lock-protected lookup in the cached map. -/
def loopGet (st : LoopState) (name : String) : Option Int :=
  cacheGet st.cache name

/-- Embeds NewLoop: the initial state has an empty cache. -/
def newLoop : LoopState := { cache := [], hash := 0 }

end V5

namespace CM

/-- Membership test on the modelled registry key set. -/
def containsStr : List String → String → Bool
  | [], _ => false
  | s :: rest, k => if s = k then true else containsStr rest k

/-- Embeds sync.Map.LoadOrStore on the set of registered feature names:
returns whether the key was already present, and the resulting set. -/
def loadOrStore (reg : List String) (key : String) : Bool × List String :=
  if containsStr reg key then (true, reg) else (false, key :: reg)

/-- Embeds the registry check of NewFeature in the first document of
src/coalmine.go: the name is stored as given (featureNames.LoadOrStore(name))
and a feature whose exact name is already present panics, modelled as
`none`; otherwise the new registry is returned and the Feature is built. -/
def newFeatureName (reg : List String) (name : String) : Option (List String) :=
  let r := loadOrStore reg name
  if r.1 then none else some r.2

end CM

namespace V5

/-- Embeds the registry check of NewFeature in part_005: the name is
lower-cased before LoadOrStore, so names that collide case-insensitively
hit the same key; a collision panics, modelled as `none`. -/
def newFeatureName (reg : List String) (name : String) : Option (List String) :=
  let r := CM.loadOrStore reg (toLowerStr name)
  if r.1 then none else some r.2

end V5

namespace V0

/-- Context entries of the older variant (part_000 with the second document
of src/context.go): value and override entries store their keys exactly as
given (valueKey(key) and overrideKey(feature.name) perform no case
folding), and a killswitch entry carries the state map of the attached
killswitch.Memory implementation. -/
inductive Entry where
  | value (key : String) (val : String)
  | override (name : String) (enable : Bool)
  | killswitch (state : List (String × Bool))

/-- A Go context chain of the older variant, innermost entry first. -/
abbrev Ctx := List Entry

/-- Embeds getValue of the second document of src/context.go: exact key
lookup, the empty string when absent. -/
def getValue : Ctx → String → String
  | [], _ => ""
  | .value k v :: rest, key => if k = key then v else getValue rest key
  | _ :: rest, key => getValue rest key

/-- Embeds checkOverride of the second document of src/context.go: exact
feature-name lookup among override entries. -/
def checkOverride : Ctx → String → Option Bool
  | [], _ => none
  | .override k b :: rest, name => if k = name then some b else checkOverride rest name
  | _ :: rest, name => checkOverride rest name

/-- Embeds getKillswitch of the second document of src/context.go. -/
def getKillswitch : Ctx → Option (List (String × Bool))
  | [] => none
  | .killswitch st :: _ => some st
  | _ :: rest => getKillswitch rest

/-- Embeds WithValue of the older variant: the key is stored as given. -/
def withValue (ctx : Ctx) (key value : String) : Ctx :=
  .value key value :: ctx

/-- Embeds Memory.Enabled of the first document of
src/killswitch/killswitch.go: a Go map read m.state[feature], whose zero
value is false when the feature is absent. -/
def memoryEnabled (state : List (String × Bool)) (feature : String) : Bool
  := memGet state feature
where
  /-- Association-list read with the Go map zero-value default. -/
  memGet : List (String × Bool) → String → Bool
  | [], _ => false
  | (k, v) :: rest, name => if k = name then v else memGet rest name

/-- The matcher options of part_000 (WithAND, WithExactMatch,
WithPercentage); this variant has no killswitch override option and every
built matcher is non-nil. -/
inductive Matcher where
  | withAND (children : List Matcher)
  | withExactMatch (key value : String)
  | withPercentage (key : String) (percent : Nat)

mutual

/-- Embeds Matcher.evaluate of part_000. -/
def evalMatcher : Matcher → Ctx → Bool
  | .withExactMatch k v, ctx => decide (getValue ctx k = v)
  | .withPercentage k p, ctx => decide (fnvString (getValue ctx k) % 100 < p)
  | .withAND cs, ctx => evalChildren cs ctx

/-- The AND loop of part_000 Matcher.evaluate, short-circuiting on the
first false child. -/
def evalChildren : List Matcher → Ctx → Bool
  | [], _ => true
  | m :: rest, ctx => if evalMatcher m ctx then evalChildren rest ctx else false

end

/-- A Feature of part_000: a name and its top-level matchers. -/
structure Feature where
  name : String
  matchers : List Matcher

/-- Embeds WithOverride of the second document of src/context.go (and
WithFeatureOverride of part_001): the feature name keys the entry with no
case folding. -/
def withOverride (ctx : Ctx) (f : Feature) (enable : Bool) : Ctx :=
  .override f.name enable :: ctx

/-- The killswitch test inside part_000 Feature.Enabled: a killswitch is
attached and reports the feature disabled. -/
def ksDisabled (ctx : Ctx) (name : String) : Bool :=
  match getKillswitch ctx with
  | none => false
  | some st => memoryEnabled st name

/-- The OR loop over top-level matchers of part_000 Feature.Enabled. -/
def anyMatcher : List Matcher → Ctx → Bool
  | [], _ => false
  | m :: rest, ctx => if evalMatcher m ctx then true else anyMatcher rest ctx

/-- Embeds part_000 Feature.Enabled: per-feature override first, then the
attached killswitch, then the matcher OR loop, default false. -/
def enabled (ctx : Ctx) (f : Feature) : Bool :=
  match checkOverride ctx f.name with
  | some b => b
  | none => if ksDisabled ctx f.name then false else anyMatcher f.matchers ctx

end V0

namespace Blob

/-- Embeds Killswitch.tick of part_003 (the blob-store killswitch): a fetch
error returns before the state is touched; a successful fetch replaces the
state wholesale with the set of lines of the payload.  The fetch argument
models the outcome of store.GetBlobData. -/
def tick (state : List String) (fetch : Option String) : List String :=
  match fetch with
  | none => state
  | some raw => splitOnChar '\n' raw

/-- Embeds Killswitch.Enabled of part_003: set membership of the feature
name in the cached state. -/
def enabled (state : List String) (feature : String) : Bool :=
  CM.containsStr state feature

end Blob

/-!
Helper lemmas.  The frame lemmas say which context entries each reader
ignores; they follow the constructor cases of the lookup functions.
-/

/-- A per-feature override entry is invisible to getValue. -/
theorem getValue_feature (fn : String) (fb : Bool) (ctx : V5.Ctx) (k : String) :
    V5.getValue (.feature fn fb :: ctx) k = V5.getValue ctx k := rfl

/-- A per-feature override entry is invisible to getKillswitch. -/
theorem getKillswitch_feature (fn : String) (fb : Bool) (ctx : V5.Ctx) :
    V5.getKillswitch (.feature fn fb :: ctx) = V5.getKillswitch ctx := rfl

/-- The killswitch check of a feature g ignores an override entry added for
any feature f. -/
theorem killswitchHit_withOverride (ctx : V5.Ctx) (f g : V5.Feature) (b : Bool) :
    V5.killswitchHit (V5.withOverride ctx f b) g = V5.killswitchHit ctx g := rfl

/-- An override entry stored under a different lower-cased name is skipped
by getOverride. -/
theorem getOverride_feature_ne (fn : String) (fb : Bool) (ctx : V5.Ctx) (name : String)
    (h : fn ≠ toLowerStr name) :
    V5.getOverride (.feature fn fb :: ctx) name = V5.getOverride ctx name := by
  simp [V5.getOverride, h]

mutual

/-- Matcher evaluation reads the context only through value entries, so a
per-feature override entry never changes it. -/
theorem evalMatcher_feature (m : V5.MOption) (fn : String) (fb : Bool) (ctx : V5.Ctx) :
    V5.evalMatcher m (.feature fn fb :: ctx) = V5.evalMatcher m ctx := by
  cases m with
  | withExactMatch k v => rfl
  | withPercentage k p => rfl
  | withKillswitchOverride l => rfl
  | withAND cs => simpa [V5.evalMatcher] using evalChildren_feature cs fn fb ctx

/-- Companion of `evalMatcher_feature` for the AND child loop. -/
theorem evalChildren_feature (cs : List V5.MOption) (fn : String) (fb : Bool) (ctx : V5.Ctx) :
    V5.evalChildren cs (.feature fn fb :: ctx) = V5.evalChildren cs ctx := by
  cases cs with
  | nil => rfl
  | cons m rest =>
    simp only [V5.evalChildren, evalMatcher_feature m fn fb ctx,
      evalChildren_feature rest fn fb ctx]

end

/-- The top-level OR loop never reads per-feature override entries. -/
theorem orMatchers_feature (ms : List V5.MOption) (fn : String) (fb : Bool) (ctx : V5.Ctx) :
    V5.orMatchers ms (.feature fn fb :: ctx) = V5.orMatchers ms ctx := by
  induction ms with
  | nil => rfl
  | cons m rest ih => simp only [V5.orMatchers, evalMatcher_feature m fn fb ctx, ih]

/-- Restatement of `orMatchers_feature` through withOverride. -/
theorem orMatchers_withOverride (ms : List V5.MOption) (ctx : V5.Ctx) (f : V5.Feature)
    (b : Bool) :
    V5.orMatchers ms (V5.withOverride ctx f b) = V5.orMatchers ms ctx :=
  orMatchers_feature ms (toLowerStr f.name) b ctx

/-- Unfolding equation for exact-match evaluation. -/
theorem evalMatcher_exact (k v : String) (ctx : V5.Ctx) :
    V5.evalMatcher (.withExactMatch k v) ctx
      = some (decide (V5.getValue ctx k = v)) := rfl

/-- Unfolding equation for percentage evaluation. -/
theorem evalMatcher_percentage (k : String) (p : Nat) (ctx : V5.Ctx) :
    V5.evalMatcher (.withPercentage k p) ctx
      = some (decide (fnvString (V5.getValue ctx k) % 100 < p)) := rfl

/-- Keys that agree after lower-casing read the same value slot. -/
theorem getValue_congr_lower (ctx : V5.Ctx) (k k2 : String)
    (h : toLowerStr k = toLowerStr k2) :
    V5.getValue ctx k = V5.getValue ctx k2 := by
  induction ctx with
  | nil => rfl
  | cons e rest ih =>
    cases e with
    | value key v => simp only [V5.getValue, h, ih]
    | feature n b => simpa only [V5.getValue] using ih
    | observer => simpa only [V5.getValue] using ih
    | killswitch c => simpa only [V5.getValue] using ih

/-- A context with no value entry for the lower-cased key reads the empty
string. -/
theorem getValue_absent (ctx : V5.Ctx) (k : String)
    (h : V5.hasValueKey ctx (toLowerStr k) = false) :
    V5.getValue ctx k = "" := by
  induction ctx with
  | nil => rfl
  | cons e rest ih =>
    cases e with
    | value key v =>
      by_cases hk : key = toLowerStr k
      · simp [V5.hasValueKey, hk] at h
      · simp only [V5.getValue, if_neg hk]
        exact ih (by simpa [V5.hasValueKey, hk] using h)
    | feature n b =>
      exact (getValue_feature n b rest k).trans (ih (by simpa [V5.hasValueKey] using h))
    | observer => simpa only [V5.getValue] using ih (by simpa [V5.hasValueKey] using h)
    | killswitch c => simpa only [V5.getValue] using ih (by simpa [V5.hasValueKey] using h)

/-- An override entry of the older variant is invisible to its getValue. -/
theorem v0_getValue_override (fn : String) (fb : Bool) (ctx : V0.Ctx) (k : String) :
    V0.getValue (.override fn fb :: ctx) k = V0.getValue ctx k := rfl

/-- An override entry of the older variant is invisible to its
getKillswitch. -/
theorem v0_getKillswitch_override (fn : String) (fb : Bool) (ctx : V0.Ctx) :
    V0.getKillswitch (.override fn fb :: ctx) = V0.getKillswitch ctx := rfl

/-- An override entry stored under a different exact name is skipped by
checkOverride of the older variant. -/
theorem v0_checkOverride_ne (fn : String) (fb : Bool) (ctx : V0.Ctx) (name : String)
    (h : fn ≠ name) :
    V0.checkOverride (.override fn fb :: ctx) name = V0.checkOverride ctx name := by
  simp [V0.checkOverride, h]

mutual

/-- Matcher evaluation of the older variant ignores override entries. -/
theorem v0_evalMatcher_override (m : V0.Matcher) (fn : String) (fb : Bool) (ctx : V0.Ctx) :
    V0.evalMatcher m (.override fn fb :: ctx) = V0.evalMatcher m ctx := by
  cases m with
  | withExactMatch k v => rfl
  | withPercentage k p => rfl
  | withAND cs => simpa [V0.evalMatcher] using v0_evalChildren_override cs fn fb ctx

/-- Companion of `v0_evalMatcher_override` for the AND child loop. -/
theorem v0_evalChildren_override (cs : List V0.Matcher) (fn : String) (fb : Bool)
    (ctx : V0.Ctx) :
    V0.evalChildren cs (.override fn fb :: ctx) = V0.evalChildren cs ctx := by
  cases cs with
  | nil => rfl
  | cons m rest =>
    simp only [V0.evalChildren, v0_evalMatcher_override m fn fb ctx,
      v0_evalChildren_override rest fn fb ctx]

end

/-- The OR loop of the older variant ignores override entries. -/
theorem v0_anyMatcher_override (ms : List V0.Matcher) (fn : String) (fb : Bool)
    (ctx : V0.Ctx) :
    V0.anyMatcher ms (.override fn fb :: ctx) = V0.anyMatcher ms ctx := by
  induction ms with
  | nil => rfl
  | cons m rest ih => simp only [V0.anyMatcher, v0_evalMatcher_override m fn fb ctx, ih]

/-- Restatement of `v0_anyMatcher_override` through withOverride. -/
theorem v0_anyMatcher_withOverride (ms : List V0.Matcher) (ctx : V0.Ctx) (f : V0.Feature)
    (b : Bool) :
    V0.anyMatcher ms (V0.withOverride ctx f b) = V0.anyMatcher ms ctx :=
  v0_anyMatcher_override ms f.name b ctx

/-- C1 (counterexample): in the boolean-mode variant (part_000 with the
killswitch.Memory implementation) the per-feature override is checked
before the attached killswitch, so for the feature "foo", a context whose
attached killswitch reports "foo" disabled but which also carries an
override forcing "foo" on, Enabled returns true, not false as the claim
requires. -/
theorem c1_boolean_killswitch_counterexample :
    V0.ksDisabled [.override "foo" true, .killswitch [("foo", true)]] "foo" = true
    ∧ V0.enabled [.override "foo" true, .killswitch [("foo", true)]]
        { name := "foo", matchers := [] } = true :=
  ⟨rfl, rfl⟩

/-- C1 (amended): in the leveled variant (part_005) the killswitch tier is
checked first, so whenever the attached killswitch stores a level above the
feature level, Enabled returns false, and it still returns false after a
per-feature override forcing the feature on is added to the context. -/
theorem c1_killswitch_preempts_override_leveled (ctx : V5.Ctx) (f : V5.Feature) (b : Bool)
    (h : V5.killswitchHit ctx f = true) :
    V5.enabled ctx f = some false
    ∧ V5.enabled (V5.withOverride ctx f b) f = some false := by
  have h2 : V5.killswitchHit (V5.withOverride ctx f b) f = true := by
    rw [killswitchHit_withOverride]; exact h
  constructor
  · simp [V5.enabled, h]
  · simp [V5.enabled, h2]

/-- C1 (witness): concrete instance of the amended theorem, with the
override forcing the feature on present in the context. -/
theorem c1_witness :
    V5.killswitchHit [.killswitch [("foo", 1)]] (V5.mkFeature "foo" []) = true
    ∧ V5.enabled (V5.withOverride [.killswitch [("foo", 1)]] (V5.mkFeature "foo" []) true)
        (V5.mkFeature "foo" []) = some false := by
  have h := c1_killswitch_preempts_override_leveled [.killswitch [("foo", 1)]]
    (V5.mkFeature "foo" []) true (by decide)
  exact ⟨by decide, h.2⟩

/-- C2: with a killswitch attached whose cache stores level N for the
lower-cased feature name, the killswitch branch fires exactly when N
exceeds the configured feature level, and Enabled is forced false in that
case while otherwise continuing with the override/matcher chain. -/
theorem c2_leveled_killswitch_rule (ctx : V5.Ctx) (f : V5.Feature)
    (c : List (String × Int)) (N : Int)
    (h1 : V5.getKillswitch ctx = some c)
    (h2 : V5.cacheGet c (toLowerStr f.name) = some N) :
    (V5.killswitchHit ctx f = true ↔ N > f.ksLevel)
    ∧ V5.enabled ctx f = (if N > f.ksLevel then some false else V5.postKillswitch ctx f) := by
  have hk : V5.killswitchHit ctx f = decide (N > f.ksLevel) := by
    unfold V5.killswitchHit
    rw [h1]
    simp only [h2]
  constructor
  · rw [hk]; exact decide_eq_true_iff
  · unfold V5.enabled
    rw [hk]
    by_cases hN : N > f.ksLevel <;> simp [hN]

/-- C2 (witness): the spec scenario; the source line checkout-v2=1 parses to
level 1, the feature is configured with override level 2, so the kill is
defeated and the matchers decide (here: enabled). -/
theorem c2_witness :
    V5.killswitchHit [.killswitch (V5.tickParse ["checkout-v2=1"]), .value "region" "eu"]
        (V5.mkFeature "checkout-v2" [.withKillswitchOverride 2, .withExactMatch "region" "eu"])
      = false
    ∧ V5.enabled [.killswitch (V5.tickParse ["checkout-v2=1"]), .value "region" "eu"]
        (V5.mkFeature "checkout-v2" [.withKillswitchOverride 2, .withExactMatch "region" "eu"])
      = some true := by
  have h := c2_leveled_killswitch_rule
    [.killswitch (V5.tickParse ["checkout-v2=1"]), .value "region" "eu"]
    (V5.mkFeature "checkout-v2" [.withKillswitchOverride 2, .withExactMatch "region" "eu"])
    (V5.tickParse ["checkout-v2=1"]) 1 rfl (by decide)
  constructor
  · have hnot : ¬ (V5.killswitchHit
        [.killswitch (V5.tickParse ["checkout-v2=1"]), .value "region" "eu"]
        (V5.mkFeature "checkout-v2" [.withKillswitchOverride 2, .withExactMatch "region" "eu"])
        = true) := fun hh => absurd (h.1.mp hh) (by decide)
    exact Bool.eq_false_iff.mpr hnot
  · rw [h.2]; decide

/-- C3 (counterexample): the line name=abc, whose level suffix fails to
parse, is stored with level 0 rather than the maximum level, so with the
default override level 0 the feature is not forced off: with a matching
matcher it still evaluates true, contradicting the claim that every
configured override level is defeated. -/
theorem c3_malformed_level_counterexample :
    V5.tickParse ["name=abc"] = [("name", 0)]
    ∧ V5.enabled [.killswitch (V5.tickParse ["name=abc"]), .value "k" "v"]
        (V5.mkFeature "name" [.withExactMatch "k" "v"]) = some true :=
  ⟨by decide, by decide⟩

/-- C3 (amended): a line whose level suffix fails to parse is not dropped:
an entry for the lower-cased name is stored, but with the int64 zero value
0, so the killswitch branch fires only for features whose configured
override level is negative; under the default level 0 (and any
non-negative level) the kill has no effect. -/
theorem c3_malformed_level_stores_zero (line name lvl : String) (rest : List String)
    (hsplit : splitOnChar '=' line = name :: lvl :: rest)
    (hfail : V5.parseInt64 lvl = none) :
    V5.parseLine line = (toLowerStr name, 0)
    ∧ ∀ (f : V5.Feature) (ctx : V5.Ctx) (c : List (String × Int)),
        0 ≤ f.ksLevel → V5.getKillswitch ctx = some c →
        V5.cacheGet c (toLowerStr f.name) = some 0 →
        V5.killswitchHit ctx f = false := by
  constructor
  · unfold V5.parseLine
    rw [hsplit]
    simp [hfail]
  · intro f ctx c h0 h1 h2
    unfold V5.killswitchHit
    rw [h1]
    have : ¬ ((0 : Int) > f.ksLevel) := by omega
    simp [h2, this]

/-- C3 (witness): concrete instance at the line name=abc. -/
theorem c3_witness :
    V5.parseLine "name=abc" = (toLowerStr "name", 0)
    ∧ V5.killswitchHit [.killswitch [("name", 0)]] (V5.mkFeature "name" []) = false := by
  have h := c3_malformed_level_stores_zero "name=abc" "name" "abc" [] (by decide) (by decide)
  exact ⟨h.1, h.2 (V5.mkFeature "name" []) [.killswitch [("name", 0)]] [("name", 0)]
    (by decide) rfl (by decide)⟩

/-- C4 (counterexample): the registry of the first document of
src/coalmine.go stores names without case folding, so after registering
"Foo" the call for "foo" also succeeds and produces a second Feature,
contradicting the claim that it must fail. -/
theorem c4_case_sensitive_registry_counterexample :
    CM.newFeatureName [] "Foo" = some ["Foo"]
    ∧ CM.newFeatureName ["Foo"] "foo" = some ["foo", "Foo"] :=
  ⟨rfl, rfl⟩

/-- C4 (amended): in the part_005 variant the registry key is the
lower-cased name, so after any successful registration, a second name equal
up to case is rejected (NewFeature panics and no Feature is produced). -/
theorem c4_lowercased_registry_rejects_duplicate (reg reg2 : List String) (n1 n2 : String)
    (h1 : V5.newFeatureName reg n1 = some reg2)
    (h2 : toLowerStr n2 = toLowerStr n1) :
    V5.newFeatureName reg2 n2 = none := by
  by_cases hc : CM.containsStr reg (toLowerStr n1)
  · exfalso
    have hn : V5.newFeatureName reg n1 = none := by
      simp [V5.newFeatureName, CM.loadOrStore, hc]
    rw [hn] at h1
    exact Option.noConfusion h1
  · have hr : reg2 = toLowerStr n1 :: reg := by
      have h3 := h1
      simp [V5.newFeatureName, CM.loadOrStore, hc] at h3
      exact h3.symm
    subst hr
    simp [V5.newFeatureName, CM.loadOrStore, CM.containsStr, h2]

/-- C4 (witness): registering "Foo" then "foo" in the part_005 registry;
the second call panics. -/
theorem c4_witness :
    V5.newFeatureName [] "Foo" = some ["foo"]
    ∧ V5.newFeatureName ["foo"] "foo" = none :=
  ⟨by decide,
    c4_lowercased_registry_rejects_duplicate [] ["foo"] "Foo" "foo" (by decide) (by decide)⟩

/-- C5 (counterexample): after a successful poll of a file with the lines
foo and bar, a poll whose open succeeds but whose scan is interrupted by a
read error after the line foo is a failed fetch, yet it installs the
partially built map: the lookup for bar changes from the maximum level to
absent, so Get results are not left as the last successful poll produced
them and a partial map replaces the cache. -/
theorem c5_partial_scan_counterexample :
    (V5.FileRead.scan ["foo"] 7 true).failed = true
    ∧ V5.loopGet (V5.loopTick V5.newLoop (.scan ["foo", "bar"] 3 false)) "bar"
        = some V5.maxInt64
    ∧ V5.loopGet
        (V5.loopTick (V5.loopTick V5.newLoop (.scan ["foo", "bar"] 3 false))
          (.scan ["foo"] 7 true)) "bar"
        = none :=
  ⟨rfl, by decide, by decide⟩

/-- C5 (amended): a failed os.Open leaves the Loop state, and hence every
Get lookup, exactly as the last successful poll produced it, and a failed
blob fetch likewise leaves the blob killswitch state and its Enabled
lookups unchanged; but a read error interrupting the scan after a
successful open is invisible to Loop.tick, which installs the map parsed
from the prefix of lines read before the error exactly as if the scan had
completed there. -/
theorem c5_open_failure_retains_scan_error_installs :
    ∀ (st : V5.LoopState) (bst : List String) (name : String)
      (lines : List String) (h : Nat),
      V5.loopTick st .openError = st
      ∧ V5.loopGet (V5.loopTick st .openError) name = V5.loopGet st name
      ∧ Blob.tick bst none = bst
      ∧ Blob.enabled (Blob.tick bst none) name = Blob.enabled bst name
      ∧ V5.loopTick st (.scan lines h true) = V5.loopTick st (.scan lines h false) :=
  fun _ _ _ _ _ => ⟨rfl, rfl, rfl, rfl, rfl⟩

/-- C6 (counterexample): in the part_001 / older context variant the value
key is stored and looked up without case folding, so a value stored under
"Region" is invisible to ExactMatch on "region" (which then reads the empty
string) while the exact spelling matches — keys are not case-insensitive
there as the claim states. -/
theorem c6_case_sensitive_key_counterexample :
    V0.evalMatcher (.withExactMatch "region" "eu") (V0.withValue [] "Region" "eu") = false
    ∧ V0.evalMatcher (.withExactMatch "Region" "eu") (V0.withValue [] "Region" "eu") = true :=
  ⟨rfl, rfl⟩

/-- C6 (amended): in the current variant (coalmine.go / part_005),
ExactMatch is true iff the looked-up value equals the target exactly
(values case-sensitive); keys agreeing up to case read the same slot, a
value written under a key is found under any spelling of it, and an absent
key reads as the empty string so it matches only the empty target. -/
theorem c6_exact_match_semantics (ctx : V5.Ctx) (k v : String) :
    V5.evalMatcher (.withExactMatch k v) ctx = some (decide (V5.getValue ctx k = v))
    ∧ (∀ k2, toLowerStr k = toLowerStr k2 → V5.getValue ctx k = V5.getValue ctx k2)
    ∧ (∀ k2 val, toLowerStr k2 = toLowerStr k →
        V5.getValue (V5.withValue ctx k2 val) k = val)
    ∧ (V5.hasValueKey ctx (toLowerStr k) = false →
        V5.evalMatcher (.withExactMatch k v) ctx = some (decide (v = ""))) := by
  refine ⟨rfl, ?_, ?_, ?_⟩
  · intro k2 h
    exact getValue_congr_lower ctx k k2 h
  · intro k2 val h
    simp [V5.withValue, V5.getValue, h]
  · intro h
    rw [evalMatcher_exact, getValue_absent ctx k h]
    simp [eq_comm]

/-- C6 (witness): concrete instance; the key spellings "Region" and
"region" share a slot, the absent key "missing" matches only the empty
string. -/
theorem c6_witness :
    V5.getValue (V5.withValue [] "Region" "eu") "region" = "eu"
    ∧ V5.evalMatcher (.withExactMatch "missing" "") ([] : V5.Ctx) = some true := by
  have h := c6_exact_match_semantics ([] : V5.Ctx) "region" "x"
  have h2 := c6_exact_match_semantics ([] : V5.Ctx) "missing" ""
  exact ⟨h.2.2.1 "Region" "eu" (by decide), by
    have := h2.2.2.2 (by decide)
    simpa using this⟩

/-- C7: raising the percentage never disables a previously enabled bucket
value (monotonicity in the percent), percent 0 matches no value and
percent 100 matches every value, the bucket being the FNV-1a hash of the
context value modulo 100. -/
theorem c7_percentage_monotone_bounds (ctx : V5.Ctx) (k : String) (p q : Nat) :
    (p ≤ q → V5.evalMatcher (.withPercentage k p) ctx = some true →
      V5.evalMatcher (.withPercentage k q) ctx = some true)
    ∧ V5.evalMatcher (.withPercentage k 0) ctx = some false
    ∧ V5.evalMatcher (.withPercentage k 100) ctx = some true := by
  refine ⟨?_, ?_, ?_⟩
  · intro hpq h
    rw [evalMatcher_percentage] at h ⊢
    simp only [Option.some_inj, decide_eq_true_eq] at h ⊢
    omega
  · rw [evalMatcher_percentage, decide_eq_false (Nat.not_lt_zero _)]
  · rw [evalMatcher_percentage, decide_eq_true (Nat.mod_lt _ (by norm_num))]

/-- C7 (witness): the bucket of the value "1" is below 50, hence below 60
by monotonicity. -/
theorem c7_witness :
    (50 ≤ 60)
    ∧ V5.evalMatcher (.withPercentage "bucket" 60) (V5.withValue [] "bucket" "1")
        = some true := by
  have h := c7_percentage_monotone_bounds (V5.withValue [] "bucket" "1") "bucket" 50 60
  exact ⟨by decide, h.1 (by decide) (by decide)⟩

/-- C8: the AND combinator with no children evaluates true for every
context (vacuous truth) and with exactly one child evaluates to the same
result as that child alone, including the panic value. -/
theorem c8_and_combinator_identities (ctx : V5.Ctx) (m : V5.MOption) :
    V5.evalMatcher (.withAND []) ctx = some true
    ∧ V5.evalMatcher (.withAND [m]) ctx = V5.evalMatcher m ctx := by
  refine ⟨rfl, ?_⟩
  show V5.evalChildren [m] ctx = V5.evalMatcher m ctx
  cases h : V5.evalMatcher m ctx with
  | none => simp [V5.evalChildren, h]
  | some b => cases b <;> simp [V5.evalChildren, h]

/-- C9: whenever the context carries an observer, a completed Enabled call
invokes it exactly once, with the feature name and the final result of the
call, whichever tier decided it. -/
theorem c9_observer_exactly_once (ctx : V5.Ctx) (f : V5.Feature) (b : Bool)
    (evs : List (String × Bool)) (h1 : V5.hasObserver ctx = true)
    (h2 : V5.enabledWithObserver ctx f = some (b, evs)) :
    evs = [(f.name, b)] := by
  unfold V5.enabledWithObserver at h2
  simp only [V5.observerCalls, h1, if_true] at h2
  split at h2
  · simp only [Option.some_inj, Prod.mk.injEq] at h2
    rw [← h2.2, h2.1]
  · split at h2
    · simp only [Option.some_inj, Prod.mk.injEq] at h2
      rw [← h2.2, h2.1]
    · split at h2
      · exact absurd h2 (by simp)
      · simp only [Option.some_inj, Prod.mk.injEq] at h2
        rw [← h2.2, h2.1]

/-- C9 (witness): a feature with no matchers under an observer context;
the observer fires once with the default false decision. -/
theorem c9_witness :
    V5.hasObserver [V5.Entry.observer] = true
    ∧ V5.enabledWithObserver [V5.Entry.observer] (V5.mkFeature "watched" [])
        = some (false, [("watched", false)])
    ∧ [("watched", false)] = [((V5.mkFeature "watched" []).name, false)] :=
  ⟨rfl, by decide,
    c9_observer_exactly_once [V5.Entry.observer] (V5.mkFeature "watched" []) false
      [("watched", false)] rfl (by decide)⟩

/-- C10: adding a per-feature override for f changes nothing another
feature g (with a different case-insensitive name) can observe: its
Enabled decision and every context value are unchanged, in the current
variant and in the older (part_001-keyed) variant alike. -/
theorem c10_override_frame_isolation (ctx : V5.Ctx) (f g : V5.Feature) (b : Bool)
    (h : toLowerStr g.name ≠ toLowerStr f.name) :
    V5.enabled (V5.withOverride ctx f b) g = V5.enabled ctx g
    ∧ (∀ k, V5.getValue (V5.withOverride ctx f b) k = V5.getValue ctx k)
    ∧ ∀ (ctx0 : V0.Ctx) (f0 g0 : V0.Feature) (b0 : Bool),
        toLowerStr g0.name ≠ toLowerStr f0.name →
        V0.enabled (V0.withOverride ctx0 f0 b0) g0 = V0.enabled ctx0 g0 := by
  refine ⟨?_, ?_, ?_⟩
  · unfold V5.enabled
    rw [killswitchHit_withOverride]
    unfold V5.postKillswitch
    rw [show V5.getOverride (V5.withOverride ctx f b) g.name = V5.getOverride ctx g.name
      from getOverride_feature_ne (toLowerStr f.name) b ctx g.name (fun he => h he.symm)]
    rw [orMatchers_withOverride]
  · intro k
    exact getValue_feature (toLowerStr f.name) b ctx k
  · intro ctx0 f0 g0 b0 h0
    have hne : f0.name ≠ g0.name := fun he => h0 (by rw [he])
    unfold V0.enabled
    rw [show V0.checkOverride (V0.withOverride ctx0 f0 b0) g0.name
        = V0.checkOverride ctx0 g0.name
      from v0_checkOverride_ne f0.name b0 ctx0 g0.name hne]
    have hks : V0.ksDisabled (V0.withOverride ctx0 f0 b0) g0.name
        = V0.ksDisabled ctx0 g0.name := rfl
    rw [hks, v0_anyMatcher_withOverride]

/-- C10 (witness): overriding "foo" leaves the matcher-driven decision of
"bar" unchanged in both variants. -/
theorem c10_witness :
    V5.enabled (V5.withOverride [V5.Entry.value "k" "x"] (V5.mkFeature "foo" []) true)
        (V5.mkFeature "bar" [.withExactMatch "k" "x"])
      = V5.enabled [V5.Entry.value "k" "x"] (V5.mkFeature "bar" [.withExactMatch "k" "x"])
    ∧ V0.enabled (V0.withOverride [] { name := "Foo", matchers := [] } true)
        { name := "bar", matchers := [] }
      = V0.enabled [] { name := "bar", matchers := [] } := by
  have h := c10_override_frame_isolation [V5.Entry.value "k" "x"] (V5.mkFeature "foo" [])
    (V5.mkFeature "bar" [.withExactMatch "k" "x"]) true (by decide)
  exact ⟨h.1, h.2.2 [] { name := "Foo", matchers := [] } { name := "bar", matchers := [] }
    true (by decide)⟩

end Coalmine
